import Mathlib

set_option maxHeartbeats 1000000

/-
Verification of the staplegl growable instance-buffer subsystem.

The definitions below are a shallow embedding of

  * include/modules/shader_data_type.hpp   (scalar/vector kinds, sizes)
  * include/modules/vertex_buffer_layout.hpp (layout construction, offsets, stride)
  * include/modules/vertex_buffer.hpp      (base-class constructor: data upload)
  * include/modules/vertex_buffer_inst.hpp (growable instance store)
  * include/modules/vertex_array.hpp       (attribute binding walk)

Machine integers are modelled as Nat (sizes, counts) and Int (signed indices,
matching the std::int32_t parameters).  GPU buffers are modelled as a byte
store: a size together with a partial map from byte address to byte value
(none = undefined contents, as produced by glBufferData with a null pointer).
The OpenGL calls used by the store are modelled after their documented
behaviour: out-of-range glBufferSubData / glCopyBufferSubData raise an error
and leave the data store untouched, and glBufferSubData raises
GL_INVALID_OPERATION and performs no write exactly when the specified write
range overlaps the region currently mapped with glMapBufferRange (a write to
a disjoint range of the same buffer is allowed).

The growth factor std::numbers::phi is an IEEE-754 double constant; the
computation static_cast<size_t>(static_cast<double>(capacity) * phi) is
modelled exactly: PHI_SIG / 2^52 is the value of the double constant, and
round-to-nearest-even at 53 significant bits is applied to the conversion of
capacity to double and to the product, followed by truncation.
-/

namespace staplegl

/-- shader_data_type.hpp: enum u_type. -/
inductive u_type where
  | float32
  | vec2
  | vec3
  | vec4
  | mat3
  | mat4
deriving DecidableEq

/-- shader_data_type.hpp lines 75-97: byte size of one attribute kind
(sizeof(float) = 4; mat3 and mat4 are padded to 3 and 4 vec4s). -/
def type_size : u_type → Nat
  | .float32 => 4
  | .vec2 => 4 * 2
  | .vec3 => 4 * 3
  | .vec4 => 4 * 4
  | .mat3 => (4 * 4) * 3
  | .mat4 => (4 * 4) * 4

/-- shader_data_type.hpp lines 168-190: number of scalar components. -/
def component_count : u_type → Nat
  | .float32 => 1
  | .vec2 => 2
  | .vec3 => 3
  | .vec4 => 4
  | .mat3 => 12
  | .mat4 => 16

/-- The OpenGL enum value GL_FLOAT. -/
def GL_FLOAT : Nat := 0x1406

/-- shader_data_type.hpp lines 141-158: underlying scalar type of each kind;
every supported kind is float-composed. -/
def to_opengl_underlying_type : u_type → Nat
  | .vec2 => GL_FLOAT
  | .vec3 => GL_FLOAT
  | .vec4 => GL_FLOAT
  | .mat3 => GL_FLOAT
  | .mat4 => GL_FLOAT
  | .float32 => GL_FLOAT

/-- vertex_buffer_layout.hpp lines 37-65: one vertex attribute.  The
constructor taking (type, name) zero-initialises offset and defaults
element_count to 1; the layout constructor overwrites offset. -/
structure vertex_attribute where
  type : u_type
  name : String
  offset : Nat
  element_count : Nat
deriving DecidableEq

/-- The two-argument vertex_attribute constructor (offset 0, element_count 1). -/
def mkAttr (t : u_type) (n : String) : vertex_attribute :=
  { type := t, name := n, offset := 0, element_count := 1 }

/-- A throwaway attribute value used as the default of List.getD. -/
def arbAttr : vertex_attribute := mkAttr .float32 ""

/-- vertex_buffer_layout.hpp lines 79-133: the layout as stored (stride plus
attribute list with computed offsets). -/
structure vertex_buffer_layout where
  m_stride : Nat
  m_attributes : List vertex_attribute

/-- One iteration of the constructor loop at vertex_buffer_layout.hpp
lines 96-99: assign the running stride as this attribute's offset, then
advance the stride by size(type) * element_count. -/
def layout_step (acc : Nat × List vertex_attribute) (a : vertex_attribute) :
    Nat × List vertex_attribute :=
  (acc.1 + type_size a.type * a.element_count, acc.2 ++ [{ a with offset := acc.1 }])

/-- vertex_buffer_layout.hpp lines 93-100: the vertex_buffer_layout
constructor. -/
def layoutOf (attributes : List vertex_attribute) : vertex_buffer_layout :=
  let r := attributes.foldl layout_step (0, [])
  { m_stride := r.1, m_attributes := r.2 }

/-- vertex_buffer_layout.hpp line 107. -/
def vertex_buffer_layout.stride (l : vertex_buffer_layout) : Nat := l.m_stride

/-- vertex_buffer_layout.hpp line 114 (stride in float elements). -/
def vertex_buffer_layout.stride_elements (l : vertex_buffer_layout) : Nat := l.m_stride / 4

/-- Reference recursion computing what the constructor loop produces: each
attribute receives the sum of the sizes of the attributes before it, starting
from st.  Used only to state and prove facts about layoutOf. -/
def with_offsets (st : Nat) : List vertex_attribute → List vertex_attribute
  | [] => []
  | a :: rest => { a with offset := st } :: with_offsets (st + type_size a.type * a.element_count) rest

/-- Total byte size of a list of attributes. -/
def sizes_sum (attrs : List vertex_attribute) : Nat :=
  (attrs.map (fun a => type_size a.type * a.element_count)).sum

/-- Round n / 2^k to the nearest integer, ties to even: the IEEE-754
round-to-nearest-even step used when a real result is narrowed to 53
significant bits. -/
def rne (n k : Nat) : Nat :=
  if 2 * (n % 2 ^ k) < 2 ^ k then n / 2 ^ k
  else if 2 ^ k < 2 * (n % 2 ^ k) then n / 2 ^ k + 1
  else if n / 2 ^ k % 2 = 0 then n / 2 ^ k else n / 2 ^ k + 1

/-- Fuel-based floor of log2 (lg2 f n computes Nat.log2 n whenever n ≤ f);
structural recursion keeps it kernel-reducible on large literals. -/
def lg2 : Nat → Nat → Nat
  | 0, _ => 0
  | f + 1, n => if n < 2 then 0 else lg2 f (n / 2) + 1

/-- The 53-bit significand of the IEEE-754 double std::numbers::phi:
the double's exact value is PHI_SIG / 2^52 = 0x1.9E3779B97F4A8p+0. -/
def PHI_SIG : Nat := 7286977268806824

/-- static_cast<double>(c) for a non-negative integer c: exact below 2^53,
otherwise rounded to nearest-even at 53 significant bits (the result is again
an integer since c ≥ 2^53). -/
def toDoubleNat (c : Nat) : Nat :=
  if c < 2 ^ 53 then c else rne c (lg2 c c - 52) * 2 ^ (lg2 c c - 52)

/-- static_cast<size_t>(static_cast<double>(c) * std::numbers::phi) for c ≥ 1:
the exact product toDoubleNat c * PHI_SIG / 2^52 is rounded to nearest-even at
53 significant bits and then truncated toward zero. -/
def phiGrow (c : Nat) : Nat :=
  let N := toDoubleNat c * PHI_SIG
  let j := lg2 N N - 52
  rne N j * 2 ^ j / 2 ^ 52

/-- vertex_buffer_inst.hpp lines 78-91: calc_capacity.  instance_size is
m_layout.stride(). -/
def calc_capacity (instance_size capacity : Nat) : Nat :=
  if capacity = 0 then instance_size
  else if capacity = instance_size then instance_size * 32
  else phiGrow capacity

/-- A GPU buffer data store: byte size, byte contents (none = undefined), and
the byte range (offset, length) currently mapped via glMapBufferRange, if
any. -/
structure GLBuf where
  sz : Nat
  mem : Nat → Option Nat
  mapped : Option (Nat × Nat)

/-- glBufferData(target, n, nullptr, hint): a data store of n bytes with
undefined contents. -/
def glBufferDataNull (n : Nat) : GLBuf :=
  { sz := n, mem := fun _ => none, mapped := none }

/-- Whether a write of len bytes at offset o overlaps the currently mapped
range: glBufferSubData raises GL_INVALID_OPERATION exactly when the specified
write range overlaps the glMapBufferRange-mapped region. -/
def write_blocked (mapped : Option (Nat × Nat)) (o len : Nat) : Bool :=
  match mapped with
  | none => false
  | some r => decide (o < r.1 + r.2) && decide (r.1 < o + len)

/-- glBufferSubData(target, off, data.length, data): writes data at byte range
[off, off + data.length) provided the range lies inside the data store and
does not overlap a mapped range; otherwise the call raises a GL error and
writes nothing. -/
def bufferSubData (b : GLBuf) (off : Int) (data : List Nat) : GLBuf :=
  if 0 ≤ off ∧ off.toNat + data.length ≤ b.sz ∧
      write_blocked b.mapped off.toNat data.length = false then
    { b with mem := fun a =>
        if off.toNat ≤ a ∧ a < off.toNat + data.length then data.get? (a - off.toNat)
        else b.mem a }
  else b

/-- glCopyBufferSubData(src, dst, 0, 0, len): device-to-device copy of the
first len bytes, provided the range fits in both stores and neither buffer is
mapped; otherwise a GL error, no copy. -/
def copyBufferSubData (src dst : GLBuf) (len : Nat) : GLBuf :=
  if len ≤ src.sz ∧ len ≤ dst.sz ∧ src.mapped = none ∧ dst.mapped = none then
    { dst with mem := fun a => if a < len then src.mem a else dst.mem a }
  else dst

/-- The mutable state of a vertex_buffer_inst: its buffer data store plus the
two counters (vertex_buffer_inst.hpp lines 63-69). -/
structure vb_inst where
  buf : GLBuf
  m_capacity : Nat
  m_count : Nat

/-- Byte a of the upload of a list of 32-bit float words (little-endian).
The claims never depend on float encodings; this fixes one concretely. -/
def floatBytes (ws : List Nat) (a : Nat) : Option Nat :=
  (ws.get? (a / 4)).map (fun w => w / 256 ^ (a % 4) % 256)

/-- vertex_buffer_inst.hpp lines 134-137 together with the base-class
constructor vertex_buffer.hpp lines 180-187: glBufferData uploads
instance_data.size_bytes() = 4 * n bytes, while m_capacity is initialised
with instance_data.size() = n, the number of float elements. -/
def vertex_buffer_inst_new (instance_data : List Nat) (_layout : vertex_buffer_layout) : vb_inst :=
  { buf := { sz := 4 * instance_data.length,
             mem := fun a => if a < 4 * instance_data.length then floatBytes instance_data a else none,
             mapped := none },
    m_capacity := instance_data.length,
    m_count := 0 }

/-- vertex_buffer_inst.hpp lines 182-194: update_instance.  The write offset
is index * instance_data.size_bytes() (in bytes; records are passed to the
model directly as byte lists).  The debug assert is modelled separately. -/
def update_instance (σ : vb_inst) (index : Int) (instance_data : List Nat) : vb_inst :=
  { σ with buf := bufferSubData σ.buf (index * instance_data.length) instance_data }

/-- The condition asserted by update_instance in debug builds
(vertex_buffer_inst.hpp line 186): index < m_count OR size_bytes == stride. -/
abbrev update_instance_assert (m_count index : Int) (size_bytes stride : Nat) : Prop :=
  index < m_count ∨ size_bytes = stride

/-- The documented precondition of update_instance (spec section 4.2):
0 <= index < count and record size equal to the layout stride. -/
abbrev update_instance_contract (m_count index : Int) (size_bytes stride : Nat) : Prop :=
  0 ≤ index ∧ index < m_count ∧ size_bytes = stride

/-- vertex_buffer_inst.hpp lines 102-131: resize_buffer at the level of data
stores.  A temporary buffer of old_capacity bytes is created, the first
m_count * stride bytes are copied into it, the store's own buffer is
re-allocated at new_capacity (undefined contents), the bytes are copied back,
and the temporary is deleted. -/
def resize_buffer (stride : Nat) (σ : vb_inst) (old_capacity new_capacity : Nat) : vb_inst :=
  let len := σ.m_count * stride
  let tmp := copyBufferSubData σ.buf (glBufferDataNull old_capacity) len
  let main := copyBufferSubData tmp (glBufferDataNull new_capacity) len
  { σ with buf := main }

/-- vertex_buffer_inst.hpp lines 170-180: add_instance.  When one more
record does not fit, resize to calc_capacity(m_capacity); then write the
record at slot m_count and increment m_count. -/
def add_instance (stride : Nat) (σ : vb_inst) (instance_data : List Nat) : vb_inst :=
  let σ' :=
    if σ.m_capacity < (σ.m_count + 1) * stride then
      { resize_buffer stride σ σ.m_capacity (calc_capacity stride σ.m_capacity) with
        m_capacity := calc_capacity stride σ.m_capacity }
    else σ
  { update_instance σ' (σ'.m_count : Int) instance_data with m_count := σ'.m_count + 1 }

/-- vertex_buffer_inst.hpp lines 196-223: delete_instance.  The last record
is mapped with glMapBufferRange at [(m_count-1)*stride, m_count*stride), read
back as stride_elements floats (4 * (stride / 4) bytes), and update_instance
is then invoked at the deleted slot while the map is still live (glUnmapBuffer
runs after update_instance); the glBufferSubData inside update_instance
therefore succeeds exactly when the written slot does not overlap the mapped
last slot.  Bytes read through the mapped pointer that are undefined are
modelled as 0 (no theorem below relies on them). -/
def delete_instance (stride : Nat) (σ : vb_inst) (index : Int) : vb_inst × Int :=
  if (σ.m_count : Int) ≤ index ∨ index < 0 then (σ, (σ.m_count : Int))
  else
    let map_off := (σ.m_count - 1) * stride
    let mapped_buf :=
      if map_off + stride ≤ σ.buf.sz ∧ σ.buf.mapped = none ∧ 0 < stride then
        { σ.buf with mapped := some (map_off, stride) }
      else σ.buf
    let read_len := 4 * (stride / 4)
    let last_instance := (List.range read_len).map (fun j => (σ.buf.mem (map_off + j)).getD 0)
    let σ₁ := update_instance { σ with buf := mapped_buf } index last_instance
    let σ₂ := { σ₁ with buf := { σ₁.buf with mapped := none } }
    ({ σ₂ with m_count := σ.m_count - 1 }, index)

/-- Buffer handles and their data-store sizes, for stating which handle the
store owns across a reallocation.  next_id is the name glGenBuffers will hand
out next; store_size tracks the allocated data-store size per live handle. -/
structure gl_handle_state where
  m_id : Nat
  next_id : Nat
  store_size : Nat → Option Nat

/-- Trace of one resize_buffer call at the level of buffer handles. -/
structure resize_trace where
  final : gl_handle_state
  temp_id : Nat
  allocs : List (Nat × Nat)
  deletes : List Nat

/-- vertex_buffer_inst.hpp lines 102-131 at the level of handles: glGenBuffers
yields new_id; glBufferData allocates new_id at old_capacity; data is copied
old -> new; glBufferData re-allocates m_id at new_capacity; data is copied
back; glDeleteBuffers releases new_id.  m_id is never reassigned.  allocs
records each glBufferData call as (handle, size) in order; deletes records
each glDeleteBuffers call. -/
def resize_buffer_handles (σ : gl_handle_state) (old_capacity new_capacity : Nat) : resize_trace :=
  let new_id := σ.next_id
  let sz1 := fun i => if i = new_id then some old_capacity else σ.store_size i
  let sz2 := fun i => if i = σ.m_id then some new_capacity else sz1 i
  let sz3 := fun i => if i = new_id then none else sz2 i
  { final := { m_id := σ.m_id, next_id := σ.next_id + 1, store_size := sz3 },
    temp_id := new_id,
    allocs := [(new_id, old_capacity), (σ.m_id, new_capacity)],
    deletes := [new_id] }

/-- One registered attribute binding: the arguments of glVertexAttribPointer
plus the divisor set by glVertexAttribDivisor (none when no divisor call is
made for the slot). -/
structure attrib_binding where
  index : Nat
  components : Nat
  scalar_type : Nat
  normalized : Bool
  stride : Nat
  byte_off : Nat
  divisor : Option Nat
deriving DecidableEq

/-- A throwaway binding used as the default of List.getD. -/
def arbBind : attrib_binding :=
  { index := 0, components := 0, scalar_type := 0, normalized := false,
    stride := 0, byte_off := 0, divisor := none }

/-- vertex_array.hpp lines 223-245: the attribute walk of add_vertex_buffer.
For each attribute in layout order one glVertexAttribPointer(attrib_index++,
component_count(type) * element_count, underlying type, GL_FALSE, stride,
offset) is issued.  Returns the registered bindings and the new value of the
member attrib_index. -/
def add_vertex_buffer_binds (l : vertex_buffer_layout) (attrib_index : Nat) :
    List attrib_binding × Nat :=
  l.m_attributes.foldl
    (fun acc a =>
      (acc.1 ++ [{ index := acc.2,
                   components := component_count a.type * a.element_count,
                   scalar_type := to_opengl_underlying_type a.type,
                   normalized := false,
                   stride := l.m_stride,
                   byte_off := a.offset,
                   divisor := none }],
       acc.2 + 1))
    ([], attrib_index)

/-- vertex_array.hpp lines 247-265: the attribute walk of set_instance_buffer.
Identical to add_vertex_buffer except that each slot additionally receives
glVertexAttribDivisor(attrib_index - 1, 1), i.e. divisor 1 on the slot just
configured. -/
def set_instance_buffer_binds (l : vertex_buffer_layout) (attrib_index : Nat) :
    List attrib_binding × Nat :=
  l.m_attributes.foldl
    (fun acc a =>
      (acc.1 ++ [{ index := acc.2,
                   components := component_count a.type * a.element_count,
                   scalar_type := to_opengl_underlying_type a.type,
                   normalized := false,
                   stride := l.m_stride,
                   byte_off := a.offset,
                   divisor := some 1 }],
       acc.2 + 1))
    ([], attrib_index)

/-- Reference recursion for the binding walk, used only in statements and
proofs about the two folds above: slot numbers count up from ai, every
binding carries the layout stride and the attribute's offset, and all
bindings share the same divisor flag. -/
def binds_from (l : vertex_buffer_layout) (dv : Option Nat) : Nat → List vertex_attribute → List attrib_binding
  | _, [] => []
  | ai, a :: rest =>
    { index := ai,
      components := component_count a.type * a.element_count,
      scalar_type := to_opengl_underlying_type a.type,
      normalized := false,
      stride := l.m_stride,
      byte_off := a.offset,
      divisor := dv } :: binds_from l dv (ai + 1) rest

/-- The capacities a store constructed empty can reach: 0, one stride, or at
least 32 strides.  This is the strengthening that makes the growth invariant
inductive. -/
def capacity_bucket (stride cap : Nat) : Prop :=
  cap = 0 ∨ cap = stride ∨ 32 * stride ≤ cap

/-- Invariant tying a store state to the list of records appended so far
(starting from a store constructed with an empty span). -/
def store_ok (stride : Nat) (σ : vb_inst) (recs : List (List Nat)) : Prop :=
  σ.m_count = recs.length ∧
  σ.buf.sz = σ.m_capacity ∧
  σ.buf.mapped = none ∧
  capacity_bucket stride σ.m_capacity ∧
  σ.m_count * stride ≤ σ.m_capacity ∧
  ∀ i, i < recs.length → ∀ j, j < stride →
    σ.buf.mem (i * stride + j) = (recs.getD i []).get? j

/-- The floor of c times the exact golden ratio (1 + sqrt 5) / 2, as the
spec's phrase "floor(c * phi) with phi the golden ratio" reads. -/
noncomputable def goldenFloor (c : Nat) : Int :=
  Int.floor ((c : Real) * ((1 + Real.sqrt 5) / 2))

/-- The layout [vec3 "pos", vec3 "color"] of concrete scenario 1. -/
def scenario1_layout : vertex_buffer_layout :=
  layoutOf [mkAttr .vec3 "pos", mkAttr .vec3 "color"]

/-- A single-vec3 layout (stride 12), used by several concrete states. -/
def vec3_layout : vertex_buffer_layout := layoutOf [mkAttr .vec3 "pos"]

/-- Concrete store for the delete_instance evaluation: stride 4, two records,
slot 0 holds bytes 1,1,1,1 and slot 1 holds bytes 2,2,2,2. -/
def delete_demo_state : vb_inst :=
  { buf := { sz := 8,
             mem := fun a => if a < 4 then some 1 else if a < 8 then some 2 else none,
             mapped := none },
    m_capacity := 8,
    m_count := 2 }

/-- Concrete handle state: the store owns handle 7 (12 bytes allocated) and
the next fresh name is 8. -/
def handle_demo_state : gl_handle_state :=
  { m_id := 7, next_id := 8, store_size := fun i => if i = 7 then some 12 else none }


/-
  Helper lemmas: bounds for the rounding model.
-/

theorem rne_lower (n k : Nat) : 2 * n ≤ 2 * (rne n k * 2 ^ k) + 2 ^ k := by
  have hK : 0 < 2 ^ k := Nat.two_pow_pos k
  have hdm : 2 ^ k * (n / 2 ^ k) + n % 2 ^ k = n := Nat.div_add_mod n (2 ^ k)
  have hdml : n / 2 ^ k * 2 ^ k + n % 2 ^ k = n := by rw [mul_comm] at hdm; exact hdm
  have hlt : n % 2 ^ k < 2 ^ k := Nat.mod_lt n hK
  unfold rne
  split_ifs with h1 h2 h3
  · linarith [hdml]
  · rw [add_mul, one_mul]
    linarith [hdml]
  · linarith [hdml]
  · rw [add_mul, one_mul]
    linarith [hdml]


theorem lg2_spec : ∀ f n, 1 ≤ n → n ≤ f → 2 ^ lg2 f n ≤ n ∧ n < 2 ^ (lg2 f n + 1) := by
  intro f
  induction f with
  | zero => intro n h1 h2; omega
  | succ f ih =>
    intro n h1 h2
    rw [lg2]
    by_cases h : n < 2
    · simp only [if_pos h]
      constructor
      · simpa using h1
      · simpa using h
    · simp only [if_neg h]
      have hd1 : 1 ≤ n / 2 := by omega
      have hd2 : n / 2 ≤ f := by omega
      have hih := ih (n / 2) hd1 hd2
      constructor
      · calc 2 ^ (lg2 f (n / 2) + 1) = 2 * 2 ^ lg2 f (n / 2) := by ring
        _ ≤ 2 * (n / 2) := by omega
        _ ≤ n := by omega
      · have h2' : n / 2 < 2 ^ (lg2 f (n / 2) + 1) := hih.2
        calc n < 2 ^ (lg2 f (n / 2) + 1) * 2 := by omega
        _ = 2 ^ (lg2 f (n / 2) + 1 + 1) := by ring

theorem toDoubleNat_ge (c : Nat) : (2 ^ 53 - 1) * c ≤ 2 ^ 53 * toDoubleNat c := by
  unfold toDoubleNat
  split_ifs with h
  · have e53 : (2 : Nat) ^ 53 = 9007199254740992 := by norm_num
    omega
  · have hc1 : 1 ≤ c := by
      have : (0 : Nat) < 2 ^ 53 := Nat.two_pow_pos 53
      omega
    have hspec := lg2_spec c c hc1 (le_refl c)
    have hL53 : 53 ≤ lg2 c c := by
      by_contra h'
      push_neg at h'
      have hle : (2 : Nat) ^ (lg2 c c + 1) ≤ 2 ^ 53 := Nat.pow_le_pow_right (by norm_num) (by omega)
      omega
    have hr := rne_lower c (lg2 c c - 52)
    have hpow : 2 ^ 53 * 2 ^ (lg2 c c - 52) = 2 * 2 ^ lg2 c c := by
      rw [← pow_add, ← pow_succ']
      congr 1
      omega
    have hmul := Nat.mul_le_mul_left (2 ^ 53) hr
    have hdistrib : 2 ^ 53 * (2 * (rne c (lg2 c c - 52) * 2 ^ (lg2 c c - 52)) + 2 ^ (lg2 c c - 52)) =
        2 ^ 53 * (2 * (rne c (lg2 c c - 52) * 2 ^ (lg2 c c - 52))) + 2 * 2 ^ lg2 c c := by
      rw [Nat.mul_add, hpow]
    rw [hdistrib] at hmul
    have hcap : 2 ^ lg2 c c ≤ c := hspec.1
    have e53 : (2 : Nat) ^ 53 = 9007199254740992 := by norm_num
    rw [e53] at hmul ⊢
    omega

theorem toDoubleNat_pos (c : Nat) (hc : 1 ≤ c) : 1 ≤ toDoubleNat c := by
  have h := toDoubleNat_ge c
  have e53 : (2 : Nat) ^ 53 = 9007199254740992 := by norm_num
  rw [e53] at h
  nlinarith

theorem phiGrow_ge (c : Nat) (hc : 1 ≤ c) :
    (2 ^ 53 - 1) ^ 2 * PHI_SIG * c / 2 ^ 158 ≤ phiGrow c := by
  have hd := toDoubleNat_ge c
  have hd1 : 1 ≤ toDoubleNat c := toDoubleNat_pos c hc
  unfold phiGrow
  have hN1 : 1 ≤ toDoubleNat c * PHI_SIG := by
    have : 1 * 1 ≤ toDoubleNat c * PHI_SIG :=
      Nat.mul_le_mul hd1 (by norm_num [PHI_SIG])
    omega
  have hNP : PHI_SIG ≤ toDoubleNat c * PHI_SIG := by
    have := Nat.mul_le_mul_right PHI_SIG hd1
    omega
  have hspec := lg2_spec (toDoubleNat c * PHI_SIG) (toDoubleNat c * PHI_SIG) hN1 (le_refl _)
  have hJ52 : 52 ≤ lg2 (toDoubleNat c * PHI_SIG) (toDoubleNat c * PHI_SIG) := by
    by_contra h'
    push_neg at h'
    have hle : (2 : Nat) ^ (lg2 (toDoubleNat c * PHI_SIG) (toDoubleNat c * PHI_SIG) + 1) ≤ 2 ^ 52 :=
      Nat.pow_le_pow_right (by norm_num) (by omega)
    have : (2 : Nat) ^ 52 = 4503599627370496 := by norm_num
    have hP : PHI_SIG = 7286977268806824 := rfl
    omega
  set N := toDoubleNat c * PHI_SIG with hN
  set J := lg2 N N with hJ
  have hr := rne_lower N (J - 52)
  have hpow : 2 ^ 53 * 2 ^ (J - 52) = 2 * 2 ^ J := by
    rw [← pow_add, ← pow_succ']
    congr 1
    omega
  have hmul := Nat.mul_le_mul_left (2 ^ 53) hr
  have hdistrib : 2 ^ 53 * (2 * (rne N (J - 52) * 2 ^ (J - 52)) + 2 ^ (J - 52)) =
      2 ^ 53 * (2 * (rne N (J - 52) * 2 ^ (J - 52))) + 2 * 2 ^ J := by
    rw [Nat.mul_add, hpow]
  rw [hdistrib] at hmul
  have hcap : 2 ^ J ≤ N := hspec.1
  have key1 : (2 ^ 53 - 1) * N ≤ 2 ^ 53 * (rne N (J - 52) * 2 ^ (J - 52)) := by
    have e53 : (2 : Nat) ^ 53 = 9007199254740992 := by norm_num
    rw [e53] at hmul ⊢
    omega
  have key2 : (2 ^ 53 - 1) ^ 2 * PHI_SIG * c ≤ 2 ^ 106 * (rne N (J - 52) * 2 ^ (J - 52)) := by
    calc (2 ^ 53 - 1) ^ 2 * PHI_SIG * c
        = (2 ^ 53 - 1) * PHI_SIG * ((2 ^ 53 - 1) * c) := by ring
      _ ≤ (2 ^ 53 - 1) * PHI_SIG * (2 ^ 53 * toDoubleNat c) :=
          Nat.mul_le_mul_left _ hd
      _ = 2 ^ 53 * ((2 ^ 53 - 1) * N) := by rw [hN]; ring
      _ ≤ 2 ^ 53 * (2 ^ 53 * (rne N (J - 52) * 2 ^ (J - 52))) :=
          Nat.mul_le_mul_left _ key1
      _ = 2 ^ 106 * (rne N (J - 52) * 2 ^ (J - 52)) := by ring
  have hdiv : (2 ^ 53 - 1) ^ 2 * PHI_SIG * c / 2 ^ 106 ≤ rne N (J - 52) * 2 ^ (J - 52) := by
    have h1 : (2 ^ 53 - 1) ^ 2 * PHI_SIG * c / 2 ^ 106 ≤
        2 ^ 106 * (rne N (J - 52) * 2 ^ (J - 52)) / 2 ^ 106 := Nat.div_le_div_right key2
    rwa [Nat.mul_div_cancel_left _ (Nat.two_pow_pos 106)] at h1
  calc (2 ^ 53 - 1) ^ 2 * PHI_SIG * c / 2 ^ 158
      = (2 ^ 53 - 1) ^ 2 * PHI_SIG * c / 2 ^ 106 / 2 ^ 52 := by
        rw [Nat.div_div_eq_div_mul]
        norm_num
    _ ≤ rne N (J - 52) * 2 ^ (J - 52) / 2 ^ 52 := Nat.div_le_div_right hdiv


theorem phiGrow_gt_self (c : Nat) (hc : 2 ≤ c) : c < phiGrow c := by
  have h := phiGrow_ge c (by omega)
  have hA : (2 ^ 53 - 1) ^ 2 * PHI_SIG = 591189830953755656791840343338911061846770840744 := by
    norm_num [PHI_SIG]
  have hstep : c + 1 ≤ (2 ^ 53 - 1) ^ 2 * PHI_SIG * c / 2 ^ 158 := by
    rw [Nat.le_div_iff_mul_le (Nat.two_pow_pos 158)]
    rw [hA]
    have e158 : (2 : Nat) ^ 158 = 365375409332725729550921208179070754913983135744 := by
      norm_num
    rw [e158]
    omega
  omega

theorem phiGrow_ge_add (cap s : Nat) (hs : 1 ≤ s) (h32 : 32 * s ≤ cap) :
    cap + s ≤ phiGrow cap := by
  have h := phiGrow_ge cap (by omega)
  have hA : (2 ^ 53 - 1) ^ 2 * PHI_SIG = 591189830953755656791840343338911061846770840744 := by
    norm_num [PHI_SIG]
  have hstep : cap + s ≤ (2 ^ 53 - 1) ^ 2 * PHI_SIG * cap / 2 ^ 158 := by
    rw [Nat.le_div_iff_mul_le (Nat.two_pow_pos 158)]
    rw [hA]
    have e158 : (2 : Nat) ^ 158 = 365375409332725729550921208179070754913983135744 := by
      norm_num
    rw [e158]
    omega
  omega

theorem calc_capacity_zero (s : Nat) : calc_capacity s 0 = s := by
  unfold calc_capacity
  simp

theorem calc_capacity_at_stride (s : Nat) (h : s ≠ 0) : calc_capacity s s = s * 32 := by
  unfold calc_capacity
  simp [h]

theorem calc_capacity_phi (s cap : Nat) (h0 : cap ≠ 0) (hs : cap ≠ s) :
    calc_capacity s cap = phiGrow cap := by
  unfold calc_capacity
  simp [h0, hs]

/-- Growth step: from any capacity an empty-constructed store can be in, one
call of calc_capacity produces room for one more record and stays in the
reachable bucket. -/
theorem calc_capacity_grows (s cap count : Nat)
    (hb : capacity_bucket s cap) (hcnt : count * s ≤ cap) (hneed : cap < (count + 1) * s) :
    (count + 1) * s ≤ calc_capacity s cap ∧ capacity_bucket s (calc_capacity s cap) := by
  have hs : 1 ≤ s := by
    rcases Nat.eq_zero_or_pos s with h0 | h1
    · subst h0; simp at hneed
    · exact h1
  rcases hb with h0 | hstride | h32
  · subst h0
    have hcount : count = 0 := by
      have := Nat.eq_zero_of_le_zero hcnt
      rcases Nat.mul_eq_zero.mp this with h | h
      · exact h
      · omega
    subst hcount
    rw [calc_capacity_zero]
    exact ⟨by omega, Or.inr (Or.inl rfl)⟩
  · subst hstride
    rw [calc_capacity_at_stride cap (by omega)]
    have hcle : count ≤ 1 := by nlinarith
    refine ⟨by nlinarith, Or.inr (Or.inr (by omega))⟩
  · have hc0 : cap ≠ 0 := by omega
    have hcs : cap ≠ s := by
      intro h
      omega
    rw [calc_capacity_phi s cap hc0 hcs]
    have hgrow := phiGrow_ge_add cap s hs h32
    refine ⟨?_, Or.inr (Or.inr (by omega))⟩
    have hexp : (count + 1) * s = count * s + s := by ring
    omega

/-
  Characterisation of the modelled GL calls.
-/

theorem bufferSubData_sz (b : GLBuf) (off : Int) (d : List Nat) :
    (bufferSubData b off d).sz = b.sz := by
  unfold bufferSubData
  split_ifs <;> rfl

theorem bufferSubData_mapped (b : GLBuf) (off : Int) (d : List Nat) :
    (bufferSubData b off d).mapped = b.mapped := by
  unfold bufferSubData
  split_ifs <;> rfl

theorem copyBufferSubData_sz (src dst : GLBuf) (len : Nat) :
    (copyBufferSubData src dst len).sz = dst.sz := by
  unfold copyBufferSubData
  split_ifs <;> rfl

theorem copyBufferSubData_mapped (src dst : GLBuf) (len : Nat) :
    (copyBufferSubData src dst len).mapped = dst.mapped := by
  unfold copyBufferSubData
  split_ifs <;> rfl

theorem bufferSubData_write (b : GLBuf) (n : Nat) (d : List Nat)
    (hfit : n * d.length + d.length ≤ b.sz)
    (hblock : write_blocked b.mapped (n * d.length) d.length = false) :
    (bufferSubData b ((n : Int) * d.length) d).mem = fun a =>
      if n * d.length ≤ a ∧ a < n * d.length + d.length then d.get? (a - n * d.length)
      else b.mem a := by
  unfold bufferSubData
  have hoff : ((n : Int) * (d.length : Int)) = ((n * d.length : Nat) : Int) := by
    push_cast
    ring
  rw [hoff]
  rw [if_pos]
  · simp only [Int.toNat_natCast]
  · refine ⟨Int.natCast_nonneg _, ?_, ?_⟩
    · rw [Int.toNat_natCast]
      exact hfit
    · rw [Int.toNat_natCast]
      exact hblock

theorem bufferSubData_dropped (b : GLBuf) (off : Int) (data : List Nat)
    (h : write_blocked b.mapped off.toNat data.length = true) :
    bufferSubData b off data = b := by
  unfold bufferSubData
  rw [if_neg]
  rintro ⟨-, -, hb⟩
  rw [h] at hb
  exact absurd hb (by simp)

theorem copyBufferSubData_mem (src dst : GLBuf) (len : Nat)
    (h1 : len ≤ src.sz) (h2 : len ≤ dst.sz) (h3 : src.mapped = none) (h4 : dst.mapped = none) :
    (copyBufferSubData src dst len).mem = fun a =>
      if a < len then src.mem a else dst.mem a := by
  unfold copyBufferSubData
  rw [if_pos ⟨h1, h2, h3, h4⟩]

theorem getD_append_left {α : Type} (l1 l2 : List α) (i : Nat) (d : α) (h : i < l1.length) :
    (l1 ++ l2).getD i d = l1.getD i d := by
  unfold List.getD
  rw [List.get?_append h]

theorem getD_append_self {α : Type} (l1 : List α) (x d : α) :
    (l1 ++ [x]).getD l1.length d = x := by
  unfold List.getD
  rw [List.get?_concat_length]
  rfl

/-
  The append invariant: writing the next record preserves store_ok.
-/

theorem store_write_ok (s : Nat) (σ τ : vb_inst) (recs : List (List Nat)) (r : List Nat)
    (hr : r.length = s)
    (hcount : σ.m_count = recs.length)
    (hτc : τ.m_count = σ.m_count)
    (hτsz : τ.buf.sz = τ.m_capacity)
    (hτm : τ.buf.mapped = none)
    (hτb : capacity_bucket s τ.m_capacity)
    (hτcap : (σ.m_count + 1) * s ≤ τ.m_capacity)
    (hτmem : ∀ i, i < recs.length → ∀ j, j < s →
      τ.buf.mem (i * s + j) = (recs.getD i []).get? j) :
    store_ok s { update_instance τ (τ.m_count : Int) r with m_count := τ.m_count + 1 }
      (recs ++ [r]) := by
  have hexp : (σ.m_count + 1) * s = σ.m_count * s + s := by ring
  have hfit : τ.m_count * r.length + r.length ≤ τ.buf.sz := by
    rw [hr, hτsz, hτc]
    omega
  have hw := bufferSubData_write τ.buf τ.m_count r hfit (by rw [hτm]; rfl)
  refine ⟨?_, ?_, ?_, ?_, ?_, ?_⟩
  · simp only [update_instance, List.length_append, List.length_singleton]
    rw [hτc, hcount]
  · simp only [update_instance, bufferSubData_sz]
    exact hτsz
  · simp only [update_instance, bufferSubData_mapped]
    exact hτm
  · simpa only [update_instance] using hτb
  · simp only [update_instance]
    rw [hτc]
    omega
  · intro i hi j hj
    simp only [update_instance]
    rw [hw]
    simp only []
    rw [List.length_append, List.length_singleton] at hi
    by_cases hlast : i = recs.length
    · subst hlast
      rw [getD_append_self]
      rw [if_pos]
      · have harg : recs.length * s + j - τ.m_count * r.length = j := by
          rw [hr, hτc, hcount]
          omega
        rw [harg]
      · rw [hr, hτc, hcount]
        omega
    · have hilt : i < recs.length := by omega
      rw [getD_append_left _ _ _ _ hilt]
      rw [if_neg]
      · exact hτmem i hilt j hj
      · have hmul : (i + 1) * s ≤ recs.length * s :=
          Nat.mul_le_mul_right s (by omega)
        have hiexp : (i + 1) * s = i * s + s := by ring
        rw [hr, hτc, hcount]
        omega

theorem add_instance_ok (s : Nat) (σ : vb_inst) (recs : List (List Nat)) (r : List Nat)
    (hr : r.length = s) (h : store_ok s σ recs) :
    store_ok s (add_instance s σ r) (recs ++ [r]) := by
  obtain ⟨hcount, hsz, hmap, hbucket, hle, hmem⟩ := h
  simp only [add_instance]
  by_cases hgrow : σ.m_capacity < (σ.m_count + 1) * s
  · rw [if_pos hgrow]
    have hcg := calc_capacity_grows s σ.m_capacity σ.m_count hbucket hle hgrow
    have hexp : (σ.m_count + 1) * s = σ.m_count * s + s := by ring
    have htmp1 : σ.m_count * s ≤ σ.buf.sz := by rw [hsz]; exact hle
    have htmp2 : σ.m_count * s ≤ (glBufferDataNull σ.m_capacity).sz := hle
    have hmemtmp := copyBufferSubData_mem σ.buf (glBufferDataNull σ.m_capacity)
      (σ.m_count * s) htmp1 htmp2 hmap rfl
    have hmain1 : σ.m_count * s ≤
        (copyBufferSubData σ.buf (glBufferDataNull σ.m_capacity) (σ.m_count * s)).sz := by
      rw [copyBufferSubData_sz]
      exact hle
    have hmain2 : σ.m_count * s ≤ (glBufferDataNull (calc_capacity s σ.m_capacity)).sz := by
      have := hcg.1
      simp only [glBufferDataNull]
      omega
    have hmain3 : (copyBufferSubData σ.buf (glBufferDataNull σ.m_capacity)
        (σ.m_count * s)).mapped = none := by
      rw [copyBufferSubData_mapped]
      rfl
    have hmemmain := copyBufferSubData_mem
      (copyBufferSubData σ.buf (glBufferDataNull σ.m_capacity) (σ.m_count * s))
      (glBufferDataNull (calc_capacity s σ.m_capacity))
      (σ.m_count * s) hmain1 hmain2 hmain3 rfl
    refine store_write_ok s σ _ recs r hr hcount ?_ ?_ ?_ ?_ ?_ ?_
    · simp [resize_buffer]
    · simp only [resize_buffer, copyBufferSubData_sz, glBufferDataNull]
    · simp only [resize_buffer, copyBufferSubData_mapped, glBufferDataNull]
    · exact hcg.2
    · exact hcg.1
    · intro i hi j hj
      simp only [resize_buffer]
      rw [hmemmain]
      simp only []
      have hmul : (i + 1) * s ≤ σ.m_count * s :=
        Nat.mul_le_mul_right s (by omega)
      have hiexp : (i + 1) * s = i * s + s := by ring
      rw [if_pos (by omega)]
      rw [hmemtmp]
      simp only []
      rw [if_pos (by omega)]
      exact hmem i hi j hj
  · rw [if_neg hgrow]
    exact store_write_ok s σ σ recs r hr hcount rfl hsz hmap hbucket (by omega) hmem

theorem store_ok_empty (l : vertex_buffer_layout) (s : Nat) :
    store_ok s (vertex_buffer_inst_new [] l) [] := by
  refine ⟨rfl, by simp [vertex_buffer_inst_new], rfl, Or.inl rfl,
    by simp [vertex_buffer_inst_new], ?_⟩
  intro i hi
  simp at hi

theorem foldl_add_ok (s : Nat) (todo : List (List Nat)) :
    ∀ (done : List (List Nat)) (σ : vb_inst),
      (∀ x ∈ todo, x.length = s) → store_ok s σ done →
      store_ok s (todo.foldl (add_instance s) σ) (done ++ todo) := by
  induction todo with
  | nil =>
    intro done σ _ h
    simpa using h
  | cons r rest ih =>
    intro done σ hl h
    simp only [List.foldl_cons]
    have h1 := add_instance_ok s σ done r (hl r (List.mem_cons_self r rest)) h
    have h2 := ih (done ++ [r]) (add_instance s σ r)
      (fun x hx => hl x (List.mem_cons_of_mem r hx)) h1
    simpa [List.append_assoc] using h2

/-
  Layout construction: the fold of the constructor computes running offsets.
-/

theorem layout_fold (attrs : List vertex_attribute) :
    ∀ (st : Nat) (acc : List vertex_attribute),
      attrs.foldl layout_step (st, acc) = (st + sizes_sum attrs, acc ++ with_offsets st attrs) := by
  induction attrs with
  | nil =>
    intro st acc
    simp [sizes_sum, with_offsets]
  | cons a rest ih =>
    intro st acc
    simp only [List.foldl_cons, layout_step]
    rw [ih]
    simp only [sizes_sum, List.map_cons, List.sum_cons, with_offsets, List.append_assoc,
      List.singleton_append, Prod.mk.injEq]
    constructor
    · ring
    · trivial

theorem layoutOf_eq (attrs : List vertex_attribute) :
    layoutOf attrs = { m_stride := sizes_sum attrs, m_attributes := with_offsets 0 attrs } := by
  unfold layoutOf
  rw [layout_fold attrs 0 []]
  simp

theorem with_offsets_length (l : List vertex_attribute) :
    ∀ st, (with_offsets st l).length = l.length := by
  induction l with
  | nil => intro st; rfl
  | cons a rest ih =>
    intro st
    simp [with_offsets, ih]

theorem with_offsets_head (st : Nat) (a : vertex_attribute) (rest : List vertex_attribute) :
    ((with_offsets st (a :: rest)).getD 0 arbAttr).offset = st := by
  simp [with_offsets]

theorem with_offsets_fields (l : List vertex_attribute) :
    ∀ st i, i < l.length →
      ((with_offsets st l).getD i arbAttr).type = (l.getD i arbAttr).type ∧
      ((with_offsets st l).getD i arbAttr).element_count = (l.getD i arbAttr).element_count ∧
      ((with_offsets st l).getD i arbAttr).name = (l.getD i arbAttr).name := by
  induction l with
  | nil =>
    intro st i h
    simp at h
  | cons a rest ih =>
    intro st i h
    cases i with
    | zero => simp [with_offsets]
    | succ i' =>
      simp only [with_offsets, List.getD_cons_succ]
      exact ih (st + type_size a.type * a.element_count) i' (by simpa using h)

theorem with_offsets_adjacent (l : List vertex_attribute) :
    ∀ st i, i + 1 < l.length →
      ((with_offsets st l).getD (i + 1) arbAttr).offset =
        ((with_offsets st l).getD i arbAttr).offset +
          type_size ((with_offsets st l).getD i arbAttr).type *
            ((with_offsets st l).getD i arbAttr).element_count := by
  induction l with
  | nil =>
    intro st i h
    simp at h
  | cons a rest ih =>
    intro st i h
    cases i with
    | zero =>
      cases rest with
      | nil => simp at h
      | cons b rest2 => simp [with_offsets]
    | succ i' =>
      simp only [with_offsets, List.getD_cons_succ]
      exact ih (st + type_size a.type * a.element_count) i' (by simpa using h)

theorem with_offsets_last (l : List vertex_attribute) :
    ∀ st, l ≠ [] →
      st + sizes_sum l =
        ((with_offsets st l).getD (l.length - 1) arbAttr).offset +
          type_size ((with_offsets st l).getD (l.length - 1) arbAttr).type *
            ((with_offsets st l).getD (l.length - 1) arbAttr).element_count := by
  induction l with
  | nil =>
    intro st h
    exact absurd rfl h
  | cons a rest ih =>
    intro st _
    cases rest with
    | nil => simp [with_offsets, sizes_sum]
    | cons b rest2 =>
      have hrec := ih (st + type_size a.type * a.element_count) (by simp)
      simp only [List.length_cons, Nat.add_sub_cancel] at hrec ⊢
      simp only [with_offsets, List.getD_cons_succ] at hrec ⊢
      simp only [sizes_sum, List.map_cons, List.sum_cons] at hrec ⊢
      omega

/-
  The attribute binding walk.
-/

theorem underlying_is_float (t : u_type) : to_opengl_underlying_type t = GL_FLOAT := by
  cases t <;> rfl

theorem bind_walk_general (l : vertex_buffer_layout) (dv : Option Nat) :
    ∀ (attrs : List vertex_attribute) (acc : List attrib_binding) (ai : Nat),
      (attrs.foldl (fun acc a =>
        (acc.1 ++ [{ index := acc.2,
                     components := component_count a.type * a.element_count,
                     scalar_type := to_opengl_underlying_type a.type,
                     normalized := false,
                     stride := l.m_stride,
                     byte_off := a.offset,
                     divisor := dv }],
         acc.2 + 1)) (acc, ai))
        = (acc ++ binds_from l dv ai attrs, ai + attrs.length) := by
  intro attrs
  induction attrs with
  | nil =>
    intro acc ai
    simp [binds_from]
  | cons a rest ih =>
    intro acc ai
    simp only [List.foldl_cons]
    rw [ih]
    simp only [binds_from, List.append_assoc, List.singleton_append, List.length_cons,
      Prod.mk.injEq]
    exact ⟨trivial, by omega⟩

theorem add_vertex_buffer_binds_eq (l : vertex_buffer_layout) (ai : Nat) :
    add_vertex_buffer_binds l ai =
      (binds_from l none ai l.m_attributes, ai + l.m_attributes.length) := by
  unfold add_vertex_buffer_binds
  rw [bind_walk_general l none l.m_attributes [] ai]
  simp

theorem set_instance_buffer_binds_eq (l : vertex_buffer_layout) (ai : Nat) :
    set_instance_buffer_binds l ai =
      (binds_from l (some 1) ai l.m_attributes, ai + l.m_attributes.length) := by
  unfold set_instance_buffer_binds
  rw [bind_walk_general l (some 1) l.m_attributes [] ai]
  simp

theorem binds_from_length (l : vertex_buffer_layout) (dv : Option Nat) :
    ∀ (attrs : List vertex_attribute) (ai : Nat),
      (binds_from l dv ai attrs).length = attrs.length := by
  intro attrs
  induction attrs with
  | nil => intro ai; rfl
  | cons a rest ih =>
    intro ai
    simp [binds_from, ih]

theorem binds_from_getD (l : vertex_buffer_layout) (dv : Option Nat) :
    ∀ (attrs : List vertex_attribute) (ai i : Nat), i < attrs.length →
      (binds_from l dv ai attrs).getD i arbBind =
        { index := ai + i,
          components := component_count (attrs.getD i arbAttr).type *
            (attrs.getD i arbAttr).element_count,
          scalar_type := GL_FLOAT,
          normalized := false,
          stride := l.m_stride,
          byte_off := (attrs.getD i arbAttr).offset,
          divisor := dv } := by
  intro attrs
  induction attrs with
  | nil =>
    intro ai i h
    simp at h
  | cons a rest ih =>
    intro ai i h
    cases i with
    | zero => simp [binds_from, underlying_is_float]
    | succ i' =>
      simp only [binds_from, List.getD_cons_succ]
      rw [ih (ai + 1) i' (by simpa using h)]
      simp only [attrib_binding.mk.injEq, and_true, true_and]
      omega

/-
  The golden-ratio floor at the counterexample point.
-/

theorem goldenFloor_102334155 : goldenFloor 102334155 = 165580140 := by
  unfold goldenFloor
  have hu : Real.sqrt 5 < 22360679774997896965 / 10 ^ 19 := by
    rw [Real.sqrt_lt' (by positivity)]
    norm_num
  have hl : (22360679774997896964 : Real) / 10 ^ 19 < Real.sqrt 5 := by
    rw [Real.lt_sqrt (by positivity)]
    norm_num
  refine Int.floor_eq_iff.mpr ⟨?_, ?_⟩
  · push_cast
    nlinarith [hl]
  · push_cast
    nlinarith [hu]

/-
  Claim theorems.
-/

/-- Claim C1 (confirmed): append/read round trip.  Starting from a store
constructed with an empty span, after any sequence of add_instance calls with
records whose byte length equals the layout stride, byte j of slot i of the
buffer holds byte j of the i-th record, for every i; in particular every
reallocation along the way preserved the first count*stride bytes. -/
theorem C1_append_read_round_trip (l : vertex_buffer_layout) (recs : List (List Nat))
    (hlen : ∀ r ∈ recs, r.length = l.stride) :
    ∀ i, i < recs.length → ∀ j, j < l.stride →
      (recs.foldl (add_instance l.stride) (vertex_buffer_inst_new [] l)).buf.mem
          (i * l.stride + j) =
        (recs.getD i []).get? j := by
  have h := foldl_add_ok l.stride recs [] (vertex_buffer_inst_new [] l) hlen
    (store_ok_empty l l.stride)
  intro i hi j hj
  exact h.2.2.2.2.2 i (by simpa using hi) j hj

/-- Witness for C1 at a concrete store: two 4-byte records with stride 4. -/
theorem C1_append_read_round_trip_witness :
    (([[1, 2, 3, 4], [5, 6, 7, 8]] : List (List Nat)).foldl
          (add_instance (layoutOf [mkAttr .float32 "x"]).stride)
          (vertex_buffer_inst_new [] (layoutOf [mkAttr .float32 "x"]))).buf.mem
        (1 * (layoutOf [mkAttr .float32 "x"]).stride + 2) =
      (([[1, 2, 3, 4], [5, 6, 7, 8]] : List (List Nat)).getD 1 []).get? 2 :=
  C1_append_read_round_trip (layoutOf [mkAttr .float32 "x"]) [[1, 2, 3, 4], [5, 6, 7, 8]]
    (by decide) 1 (by decide) 2 (by decide)

/-- Claim C2 (confirmed): delete_instance full behaviour.  On a store whose
buffer is not currently mapped, holds at least count*stride bytes, whose
stride is a positive multiple of 4 (every layout stride is, since all
attribute kinds have 4-byte float components) and whose last slot holds
defined bytes: for 0 <= k < count, delete_instance(k) sets count to count-1,
returns k, and makes the bytes at slot k equal the bytes previously at slot
count-1 (for k = count-1 the swap write overlaps the mapped last slot, is
rejected by glBufferSubData, and the slot keeps its bytes, which is the same
thing); for k outside [0, count), including negative k, the state is
unchanged and the old count is returned. -/
theorem C2_delete_instance_behaviour (stride : Nat) (σ : vb_inst) (k : Int)
    (hs : 0 < stride) (h4 : stride % 4 = 0)
    (hm : σ.buf.mapped = none)
    (hsz : σ.m_count * stride ≤ σ.buf.sz)
    (hdef : ∀ j, j < stride →
      (σ.buf.mem ((σ.m_count - 1) * stride + j)).isSome = true) :
    (0 ≤ k ∧ k < (σ.m_count : Int) →
      (delete_instance stride σ k).1.m_count = σ.m_count - 1 ∧
      (delete_instance stride σ k).2 = k ∧
      ∀ j, j < stride →
        (delete_instance stride σ k).1.buf.mem (k.toNat * stride + j) =
          σ.buf.mem ((σ.m_count - 1) * stride + j)) ∧
    ((k < 0 ∨ (σ.m_count : Int) ≤ k) →
      (delete_instance stride σ k).1 = σ ∧
      (delete_instance stride σ k).2 = (σ.m_count : Int)) := by
  constructor
  · rintro ⟨hk0, hkn⟩
    have hguard : ¬ ((σ.m_count : Int) ≤ k ∨ k < 0) := by omega
    have hn1 : 1 ≤ σ.m_count := by omega
    have hsum : (σ.m_count - 1) * stride + stride = σ.m_count * stride := by
      have h1 : σ.m_count - 1 + 1 = σ.m_count := by omega
      calc (σ.m_count - 1) * stride + stride = (σ.m_count - 1 + 1) * stride := by ring
        _ = σ.m_count * stride := by rw [h1]
    have hk : ((k.toNat : Nat) : Int) = k := Int.toNat_of_nonneg hk0
    have hktop : k.toNat ≤ σ.m_count - 1 := by omega
    have hreadlen : 4 * (stride / 4) = stride :=
      Nat.mul_div_cancel' (Nat.dvd_of_mod_eq_zero h4)
    simp only [delete_instance]
    rw [if_neg hguard]
    rw [if_pos ⟨by omega, hm, hs⟩]
    set last := (List.range (4 * (stride / 4))).map
      (fun j => (σ.buf.mem ((σ.m_count - 1) * stride + j)).getD 0) with hlastdef
    have hlastlen : last.length = stride := by
      rw [hlastdef, List.length_map, List.length_range, hreadlen]
    have hlastget : ∀ j, j < stride →
        last.get? j = some ((σ.buf.mem ((σ.m_count - 1) * stride + j)).getD 0) := by
      intro j hj
      rw [hlastdef, List.get?_map, List.get?_range (by omega)]
      rfl
    have hsome : ∀ j, j < stride →
        some ((σ.buf.mem ((σ.m_count - 1) * stride + j)).getD 0) =
          σ.buf.mem ((σ.m_count - 1) * stride + j) := by
      intro j hj
      have hdj := hdef j hj
      cases hmem : σ.buf.mem ((σ.m_count - 1) * stride + j) with
      | none => rw [hmem] at hdj; simp at hdj
      | some b => simp
    have hoffnat : (k * (last.length : Int)).toNat = k.toNat * last.length := by
      rw [← hk]
      rw [show ((k.toNat : Int) * (last.length : Int)) = ((k.toNat * last.length : Nat) : Int)
        by push_cast; ring]
      exact Int.toNat_natCast _
    by_cases hklast : k.toNat = σ.m_count - 1
    · -- deleting the last slot: the swap write overlaps the mapped range and
      -- is rejected, leaving the slot's bytes unchanged (= its own bytes).
      have hblock : write_blocked (GLBuf.mk σ.buf.sz σ.buf.mem
          (some ((σ.m_count - 1) * stride, stride))).mapped
          ((k * (last.length : Int)).toNat) last.length = true := by
        rw [hoffnat, hlastlen, hklast]
        simp only [write_blocked, Bool.and_eq_true, decide_eq_true_eq]
        omega
      have hdrop : bufferSubData
          (GLBuf.mk σ.buf.sz σ.buf.mem (some ((σ.m_count - 1) * stride, stride)))
          (k * (last.length : Int)) last =
          GLBuf.mk σ.buf.sz σ.buf.mem (some ((σ.m_count - 1) * stride, stride)) :=
        bufferSubData_dropped _ _ _ hblock
      simp only [update_instance]
      rw [hdrop]
      refine ⟨by trivial, by trivial, ?_⟩
      intro j hj
      rw [hklast]
    · -- deleting a non-last slot: the swap write range lies strictly below the
      -- mapped last slot, so it proceeds and copies the last record's bytes.
      have hklt : k.toNat < σ.m_count - 1 := by omega
      have hmulle : (k.toNat + 1) * stride ≤ (σ.m_count - 1) * stride :=
        Nat.mul_le_mul_right stride (by omega)
      have hexp : (k.toNat + 1) * stride = k.toNat * stride + stride := by ring
      have hfit : k.toNat * last.length + last.length ≤
          (GLBuf.mk σ.buf.sz σ.buf.mem (some ((σ.m_count - 1) * stride, stride))).sz := by
        rw [hlastlen]
        show k.toNat * stride + stride ≤ σ.buf.sz
        omega
      have hblock : write_blocked (GLBuf.mk σ.buf.sz σ.buf.mem
          (some ((σ.m_count - 1) * stride, stride))).mapped
          (k.toNat * last.length) last.length = false := by
        rw [hlastlen]
        have hnolt : ¬ ((σ.m_count - 1) * stride < k.toNat * stride + stride) := by omega
        simp only [write_blocked]
        simp [hnolt]
      have hw := bufferSubData_write
        (GLBuf.mk σ.buf.sz σ.buf.mem (some ((σ.m_count - 1) * stride, stride)))
        k.toNat last hfit hblock
      have hoffeq : (k * (last.length : Int)) = ((k.toNat : Int) * (last.length : Int)) := by
        rw [hk]
      refine ⟨by trivial, by trivial, ?_⟩
      intro j hj
      simp only [update_instance]
      rw [hoffeq, hw]
      simp only []
      rw [hlastlen]
      rw [if_pos (by omega)]
      have harg : k.toNat * stride + j - k.toNat * stride = j := by omega
      rw [harg, hlastget j hj, hsome j hj]
  · intro h
    simp only [delete_instance]
    rw [if_pos (by omega)]
    exact ⟨rfl, rfl⟩

/-- Witness for C2 at a concrete two-record store with stride 4: deleting
slot 0 copies slot 1's bytes into slot 0, decrements the count, returns 0. -/
theorem C2_delete_instance_behaviour_witness :
    (delete_instance 4 delete_demo_state 0).1.m_count = delete_demo_state.m_count - 1 ∧
    (delete_instance 4 delete_demo_state 0).2 = 0 ∧
    ∀ j, j < 4 →
      (delete_instance 4 delete_demo_state 0).1.buf.mem ((0 : Int).toNat * 4 + j) =
        delete_demo_state.buf.mem ((delete_demo_state.m_count - 1) * 4 + j) :=
  (C2_delete_instance_behaviour 4 delete_demo_state 0 (by decide) (by decide) rfl
    (by decide) (by decide)).1 (by decide)

/-- Counterexample for C3: at capacity 102334155 (with stride 12), the code
computes 165580141, one more than the floor of 102334155 times the exact
golden ratio, because std::numbers::phi is a double slightly above the golden
ratio. -/
theorem C3_counterexample :
    (calc_capacity 12 102334155 : Int) ≠ goldenFloor 102334155 := by
  have hc : calc_capacity 12 102334155 = 165580141 := by decide
  rw [hc, goldenFloor_102334155]
  decide

/-- Claim C3 (amended): calc_capacity(0) = stride and calc_capacity(stride) =
stride * 32; the concrete scenario holds (empty store with stride 12: first
add gives capacity 12 and count 1, second add gives capacity 384 and count 2);
but on the remaining capacities the code computes capacity times the
double-precision constant phi, truncated, which can exceed
floor(capacity * golden ratio): at capacity 102334155 it is exactly one
more. -/
theorem C3_capacity_policy_amended :
    (∀ s : Nat, calc_capacity s 0 = s) ∧
    (∀ s : Nat, s ≠ 0 → calc_capacity s s = s * 32) ∧
    ((add_instance 12 (vertex_buffer_inst_new [] vec3_layout) (List.replicate 12 0)).m_capacity
        = 12 ∧
      (add_instance 12 (vertex_buffer_inst_new [] vec3_layout)
          (List.replicate 12 0)).m_count = 1 ∧
      (add_instance 12 (add_instance 12 (vertex_buffer_inst_new [] vec3_layout)
          (List.replicate 12 0)) (List.replicate 12 0)).m_capacity = 384 ∧
      (add_instance 12 (add_instance 12 (vertex_buffer_inst_new [] vec3_layout)
          (List.replicate 12 0)) (List.replicate 12 0)).m_count = 2) ∧
    (calc_capacity 12 102334155 : Int) = goldenFloor 102334155 + 1 := by
  refine ⟨calc_capacity_zero, fun s hs => calc_capacity_at_stride s hs, by decide, ?_⟩
  have hc : calc_capacity 12 102334155 = 165580141 := by decide
  rw [hc, goldenFloor_102334155]
  decide

/-- Witness for C3 (amended) at stride 7: the second growth case. -/
theorem C3_capacity_policy_amended_witness :
    (7 : Nat) ≠ 0 ∧ calc_capacity 7 7 = 7 * 32 :=
  ⟨by decide, C3_capacity_policy_amended.2.1 7 (by decide)⟩

/-- Counterexample for C4: on a reallocation from capacity 12 to 384 the
store's buffer handle does not change (resize_buffer re-allocates the data
store of the same m_id), and the freshly generated handle is a temporary that
is allocated at the OLD capacity 12 (not 384) and deleted before returning. -/
theorem C4_counterexample :
    (resize_buffer_handles handle_demo_state 12 384).final.m_id = handle_demo_state.m_id ∧
    (resize_buffer_handles handle_demo_state 12 384).allocs.getD 0 (0, 0) =
      ((resize_buffer_handles handle_demo_state 12 384).temp_id, 12) ∧
    (resize_buffer_handles handle_demo_state 12 384).temp_id ≠ handle_demo_state.m_id := by
  decide

/-- Claim C4 (amended): when add_instance triggers reallocation, a temporary
buffer handle is allocated with size old_capacity, the store's own handle is
re-allocated at new_capacity (the first glBufferData call is on the temporary
at old_capacity, the second on m_id at new_capacity), the temporary is
deleted, and the store keeps its original handle m_id, so attribute bindings
that reference it stay valid; the first count*stride bytes of the buffer are
preserved across the two copies. -/
theorem C4_realloc_protocol_amended (g : gl_handle_state) (oc nc : Nat)
    (hfresh : g.next_id ≠ g.m_id) :
    ((resize_buffer_handles g oc nc).final.m_id = g.m_id ∧
      (resize_buffer_handles g oc nc).allocs =
        [((resize_buffer_handles g oc nc).temp_id, oc), (g.m_id, nc)] ∧
      (resize_buffer_handles g oc nc).final.store_size g.m_id = some nc ∧
      (resize_buffer_handles g oc nc).final.store_size
        (resize_buffer_handles g oc nc).temp_id = none ∧
      (resize_buffer_handles g oc nc).deletes = [(resize_buffer_handles g oc nc).temp_id]) ∧
    ∀ (s : Nat) (σ : vb_inst), σ.buf.mapped = none → σ.buf.sz = oc →
      σ.m_count * s ≤ oc → σ.m_count * s ≤ nc →
      ∀ a, a < σ.m_count * s → (resize_buffer s σ oc nc).buf.mem a = σ.buf.mem a := by
  constructor
  · have h2 : g.m_id ≠ g.next_id := fun h => hfresh h.symm
    refine ⟨rfl, rfl, ?_, ?_, rfl⟩
    · simp [resize_buffer_handles, h2]
    · simp [resize_buffer_handles]
  · intro s σ hm hsz hoc hnc a ha
    have hmemtmp := copyBufferSubData_mem σ.buf (glBufferDataNull oc) (σ.m_count * s)
      (by rw [hsz]; exact hoc) hoc hm rfl
    have hmain1 : σ.m_count * s ≤
        (copyBufferSubData σ.buf (glBufferDataNull oc) (σ.m_count * s)).sz := by
      rw [copyBufferSubData_sz]
      exact hoc
    have hmain3 : (copyBufferSubData σ.buf (glBufferDataNull oc)
        (σ.m_count * s)).mapped = none := by
      rw [copyBufferSubData_mapped]
      rfl
    have hmemmain := copyBufferSubData_mem
      (copyBufferSubData σ.buf (glBufferDataNull oc) (σ.m_count * s))
      (glBufferDataNull nc) (σ.m_count * s) hmain1 hnc hmain3 rfl
    unfold resize_buffer
    simp only []
    rw [hmemmain]
    simp only []
    rw [if_pos ha]
    rw [hmemtmp]
    simp only []
    rw [if_pos ha]

/-- Witness for C4 (amended): the store keeps handle 7 with 384 bytes. -/
theorem C4_realloc_protocol_amended_witness :
    (resize_buffer_handles handle_demo_state 12 384).final.store_size
      handle_demo_state.m_id = some 384 :=
  (C4_realloc_protocol_amended handle_demo_state 12 384 (by decide)).1.2.2.1

/-- Claim C5 (code bug, evaluated): the constructor initialises m_capacity
with the number of FLOAT elements of the initial data although the field is
documented to be in bytes; constructing over a stride-12 layout with one
record's worth of floats (3 floats) and then adding one 12-byte record leaves
count = 1 and capacity = 4 (the 3-element capacity grown once by phi), so
count * stride = 12 > 4 and the documented invariant count * stride <=
capacity is violated. -/
theorem C5_invariant_violation :
    vec3_layout.stride = 12 ∧
    (vertex_buffer_inst_new [0, 0, 0] vec3_layout).m_capacity = 3 ∧
    (add_instance vec3_layout.stride (vertex_buffer_inst_new [0, 0, 0] vec3_layout)
        (List.replicate 12 0)).m_count = 1 ∧
    (add_instance vec3_layout.stride (vertex_buffer_inst_new [0, 0, 0] vec3_layout)
        (List.replicate 12 0)).m_capacity = 4 ∧
    (add_instance vec3_layout.stride (vertex_buffer_inst_new [0, 0, 0] vec3_layout)
          (List.replicate 12 0)).m_capacity <
      (add_instance vec3_layout.stride (vertex_buffer_inst_new [0, 0, 0] vec3_layout)
          (List.replicate 12 0)).m_count * vec3_layout.stride := by
  decide

/-- Counterexample for C6: capacity 1 is reachable by constructing with a
single float, and with stride 12 the growth then stalls:
calc_capacity(1) = trunc(1 * phi) = 1, which is not greater than 1. -/
theorem C6_growth_stall_counterexample :
    (vertex_buffer_inst_new [0] vec3_layout).m_capacity = 1 ∧
    ¬ 1 < calc_capacity vec3_layout.stride
        (vertex_buffer_inst_new [0] vec3_layout).m_capacity := by
  decide

/-- Claim C6 (amended): calc_capacity(c) > c holds for every capacity c
except the stall point c = 1 with stride different from 1 (c = 0 and c =
stride fall in the special cases; every c at least 2 grows strictly under the
phi rule). -/
theorem C6_growth_monotonic_amended (s c : Nat) (hs : 1 ≤ s) (hc : c ≠ 1 ∨ s = 1) :
    c < calc_capacity s c := by
  by_cases h0 : c = 0
  · subst h0
    rw [calc_capacity_zero]
    omega
  · by_cases hcs : c = s
    · subst hcs
      rw [calc_capacity_at_stride c (by omega)]
      omega
    · have hc2 : 2 ≤ c := by
        rcases hc with h | h
        · omega
        · omega
      rw [calc_capacity_phi s c h0 hcs]
      exact phiGrow_gt_self c hc2

/-- Witness for C6 (amended): capacity 384 with stride 12 grows strictly. -/
theorem C6_growth_monotonic_amended_witness :
    (1 ≤ 12 ∧ ((384 : Nat) ≠ 1 ∨ (12 : Nat) = 1)) ∧ 384 < calc_capacity 12 384 :=
  ⟨⟨by decide, Or.inl (by decide)⟩,
    C6_growth_monotonic_amended 12 384 (by decide) (Or.inl (by decide))⟩

/-- Claim C7 (confirmed): for any layout built from a nonempty ordered
attribute list, the first attribute has offset 0, each following attribute's
offset is the previous offset plus the previous attribute's byte size, and
the stride equals the last attribute's offset plus its size; concretely the
layout [vec3 "pos", vec3 "color"] has stride 24, pos at offset 0 and color at
offset 12. -/
theorem C7_layout_offsets (attrs : List vertex_attribute) (h : attrs ≠ []) :
    ((layoutOf attrs).m_attributes.getD 0 arbAttr).offset = 0 ∧
    (∀ i, i + 1 < attrs.length →
      ((layoutOf attrs).m_attributes.getD (i + 1) arbAttr).offset =
        ((layoutOf attrs).m_attributes.getD i arbAttr).offset +
          type_size ((layoutOf attrs).m_attributes.getD i arbAttr).type *
            ((layoutOf attrs).m_attributes.getD i arbAttr).element_count) ∧
    (layoutOf attrs).stride =
      ((layoutOf attrs).m_attributes.getD (attrs.length - 1) arbAttr).offset +
        type_size ((layoutOf attrs).m_attributes.getD (attrs.length - 1) arbAttr).type *
          ((layoutOf attrs).m_attributes.getD (attrs.length - 1) arbAttr).element_count ∧
    scenario1_layout.stride = 24 ∧
    (scenario1_layout.m_attributes.getD 0 arbAttr).name = "pos" ∧
    (scenario1_layout.m_attributes.getD 0 arbAttr).offset = 0 ∧
    (scenario1_layout.m_attributes.getD 1 arbAttr).name = "color" ∧
    (scenario1_layout.m_attributes.getD 1 arbAttr).offset = 12 := by
  rw [layoutOf_eq]
  refine ⟨?_, ?_, ?_, by decide, by decide, by decide, by decide, by decide⟩
  · cases attrs with
    | nil => exact absurd rfl h
    | cons a rest => exact with_offsets_head 0 a rest
  · intro i hi
    exact with_offsets_adjacent attrs 0 i hi
  · have hlast := with_offsets_last attrs 0 h
    unfold vertex_buffer_layout.stride
    simp only []
    omega

/-- Witness for C7 at the concrete two-vec3 layout. -/
theorem C7_layout_offsets_witness :
    ((layoutOf [mkAttr .vec3 "pos", mkAttr .vec3 "color"]).m_attributes.getD 0 arbAttr).offset
      = 0 :=
  (C7_layout_offsets [mkAttr .vec3 "pos", mkAttr .vec3 "color"] (by decide)).1

/-- Claim C8 (code bug, evaluated): the debug assert of update_instance is
index < m_count OR size == stride, so precondition violations pass it
whenever at least one disjunct holds: an out-of-range index with a correct
record size, a negative index, and a wrong record size with an in-range index
all violate the documented precondition yet satisfy the asserted
condition. -/
theorem C8_assert_gap :
    (¬ update_instance_contract 1 2 12 12 ∧ update_instance_assert 1 2 12 12) ∧
    (¬ update_instance_contract 2 (-1) 12 12 ∧ update_instance_assert 2 (-1) 12 12) ∧
    (¬ update_instance_contract 2 1 8 12 ∧ update_instance_assert 2 1 8 12) := by
  decide

/-- Claim C9 (confirmed): binding a buffer registers one descriptor per
attribute in layout order, with slot numbers counting up by exactly 1 from
the array object's running attrib_index (a second buffer continues where the
first left off), component count equal to component_count(kind) *
element_count, scalar type GL_FLOAT, the layout's full stride, the
attribute's byte offset; instance buffers additionally set divisor 1 on each
slot while per-vertex buffers issue no divisor call. -/
theorem C9_attribute_binder (l : vertex_buffer_layout) (ai : Nat) :
    ((add_vertex_buffer_binds l ai).1.length = l.m_attributes.length ∧
      (add_vertex_buffer_binds l ai).2 = ai + l.m_attributes.length ∧
      ∀ i, i < l.m_attributes.length →
        (add_vertex_buffer_binds l ai).1.getD i arbBind =
          { index := ai + i,
            components := component_count (l.m_attributes.getD i arbAttr).type *
              (l.m_attributes.getD i arbAttr).element_count,
            scalar_type := GL_FLOAT,
            normalized := false,
            stride := l.m_stride,
            byte_off := (l.m_attributes.getD i arbAttr).offset,
            divisor := none }) ∧
    ((set_instance_buffer_binds l ai).1.length = l.m_attributes.length ∧
      (set_instance_buffer_binds l ai).2 = ai + l.m_attributes.length ∧
      ∀ i, i < l.m_attributes.length →
        (set_instance_buffer_binds l ai).1.getD i arbBind =
          { index := ai + i,
            components := component_count (l.m_attributes.getD i arbAttr).type *
              (l.m_attributes.getD i arbAttr).element_count,
            scalar_type := GL_FLOAT,
            normalized := false,
            stride := l.m_stride,
            byte_off := (l.m_attributes.getD i arbAttr).offset,
            divisor := some 1 }) ∧
    ∀ l2 : vertex_buffer_layout,
      (set_instance_buffer_binds l2 (add_vertex_buffer_binds l ai).2).2 =
        ai + l.m_attributes.length + l2.m_attributes.length := by
  refine ⟨⟨?_, ?_, ?_⟩, ⟨?_, ?_, ?_⟩, ?_⟩
  · rw [add_vertex_buffer_binds_eq]
    exact binds_from_length l none l.m_attributes ai
  · rw [add_vertex_buffer_binds_eq]
  · intro i hi
    rw [add_vertex_buffer_binds_eq]
    exact binds_from_getD l none l.m_attributes ai i hi
  · rw [set_instance_buffer_binds_eq]
    exact binds_from_length l (some 1) l.m_attributes ai
  · rw [set_instance_buffer_binds_eq]
  · intro i hi
    rw [set_instance_buffer_binds_eq]
    exact binds_from_getD l (some 1) l.m_attributes ai i hi
  · intro l2
    rw [set_instance_buffer_binds_eq, add_vertex_buffer_binds_eq]

/-- Witness for C9 at the two-vec3 layout, starting from slot 3. -/
theorem C9_attribute_binder_witness :
    (add_vertex_buffer_binds scenario1_layout 3).1.getD 1 arbBind =
      { index := 3 + 1,
        components := component_count (scenario1_layout.m_attributes.getD 1 arbAttr).type *
          (scenario1_layout.m_attributes.getD 1 arbAttr).element_count,
        scalar_type := GL_FLOAT,
        normalized := false,
        stride := scenario1_layout.m_stride,
        byte_off := (scenario1_layout.m_attributes.getD 1 arbAttr).offset,
        divisor := none } :=
  (C9_attribute_binder scenario1_layout 3).1.2.2 1 (by decide)

/-- Claim C10 (confirmed): constructing a store over n > 0 floats of initial
data sets capacity() to n, the float-element count, although the device
buffer was allocated with 4*n bytes, and instance_count() is 0 (the initial
records are uploaded but not counted). -/
theorem C10_ctor_capacity_in_elements (instance_data : List Nat)
    (l : vertex_buffer_layout) (h : instance_data ≠ []) :
    (vertex_buffer_inst_new instance_data l).m_capacity = instance_data.length ∧
    (vertex_buffer_inst_new instance_data l).m_count = 0 ∧
    (vertex_buffer_inst_new instance_data l).buf.sz = 4 * instance_data.length ∧
    (vertex_buffer_inst_new instance_data l).m_capacity ≠
      (vertex_buffer_inst_new instance_data l).buf.sz := by
  refine ⟨rfl, rfl, rfl, ?_⟩
  have hlen : instance_data.length ≠ 0 := fun hh => h (List.eq_nil_of_length_eq_zero hh)
  simp only [vertex_buffer_inst_new]
  omega

/-- Witness for C10 at three floats of initial data. -/
theorem C10_ctor_capacity_in_elements_witness :
    (vertex_buffer_inst_new [5, 6, 7] vec3_layout).m_capacity ≠
      (vertex_buffer_inst_new [5, 6, 7] vec3_layout).buf.sz :=
  (C10_ctor_capacity_in_elements [5, 6, 7] vec3_layout (by decide)).2.2.2

end staplegl
